import Mathlib

/-!
Verification of the node-sourcing pipeline of `gatsby-source-wordpress-experimental`.

The development shallowly embeds the two source modules
`src/steps/source-nodes/create-nodes/create-nodes.js` (node materialization) and
`src/steps/source-nodes/fetch-nodes/fetch-nodes.js` (content-type orchestration and
driver).  External collaborators (the paginated fetcher, `urlToPath`,
`createContentDigest`, `buildTypeName`, `getTypeSettingsByType`, the cache, the
reporter) live outside these files and are modelled as opaque function parameters,
exactly at their interface boundary.  JavaScript's sequential `async`/`await`
control flow is embedded as explicit state passing; the bounded-concurrency
`p-queue` is modelled by draining queued units in scheduling order, and the
observable actions of a run (type fetches, record scans, hook invocations, node
commits, the expansion fetch, the cache write) are recorded in an event trace.
-/

set_option autoImplicit false

namespace WpSource

/-- A raw record as returned by the remote WPGraphQL source: a stable `id`, a
`type` discriminator, an optional `link` (used to derive a local `path`, which
the materializer may add), and the remaining opaque fields.  An opaque field is
kept as its key together with the raw text of its canonical serialization. -/
structure RawRecord where
  id : String
  type : String
  link : Option String
  path : Option String
  fields : List (String × String)
deriving DecidableEq

/-- The `internal` metadata of a committed Gatsby node. -/
structure Internal where
  contentDigest : String
  type : String
deriving DecidableEq

/-- A materialized Gatsby node: all record fields, a forced `parent = null`, and
the `internal` metadata, as built by `createNodeWithSideEffects`. -/
structure MaterializedNode where
  id : String
  type : String
  link : Option String
  path : Option String
  fields : List (String × String)
  parent : Option String
  internal : Internal
deriving DecidableEq

/-- Per-type plugin settings relevant to the orchestrator
(`settings.exclude`, `settings.lazyNodes`). -/
structure QueryInfoSettings where
  exclude : Bool
  lazyNodes : Bool
deriving DecidableEq

/-- Identification of one remote content type, produced by introspection. -/
structure TypeInfo where
  singularName : String
  pluralName : String
  nodesTypeName : String
deriving DecidableEq

/-- One entry of the query catalog: type info, list queries and settings. -/
structure QueryInfo where
  typeInfo : TypeInfo
  nodeListQueries : List String
  settings : QueryInfoSettings
deriving DecidableEq

/-- The fully paginated fetch result for one content type, as returned by
`fetchWPGQLContentNodes`. -/
structure ContentNodeGroup where
  singular : String
  plural : String
  allNodesOfContentType : List RawRecord
deriving DecidableEq

/-- Observable actions of a run, recorded in scheduling order. -/
inductive Event where
  /-- `fetchWPGQLContentNodes` was invoked upfront for this catalog entry. -/
  | fetchType (queryInfo : QueryInfo)
  /-- the `generalSettings { url }` query issued at the start of
  `createGatsbyNodesFromWPGQLContentNodes`. -/
  | fetchGeneralSettings
  /-- the embedded-reference scan ran over the serialized record with this id. -/
  | scanRecord (id : String)
  /-- the `beforeChangeNode` hook was invoked for the record with this id. -/
  | hookInvoked (id : String)
  /-- a hook-reported additional node id was pushed onto the ledger. -/
  | pushAdditionalId (id : String)
  /-- `actions.createNode` committed the node with this id. -/
  | createNode (id : String)
  /-- the record's own id was pushed onto the ledger. -/
  | pushOwnId (id : String)
  /-- `fetchReferencedMediaItemsAndCreateNodes` ran over these referenced ids. -/
  | expansionFetch (ids : List String)
  /-- `cache.set` persisted the ledger under the given key. -/
  | cacheSet (key : String) (ids : List String)
deriving DecidableEq

/-- `pluginOptions.type.MediaItem`. -/
structure MediaItemOptions where
  lazyNodes : Bool
deriving DecidableEq

/-- `pluginOptions.type`. -/
structure TypeOptions where
  MediaItem : MediaItemOptions
deriving DecidableEq

/-- The plugin options consulted by these modules. -/
structure PluginOptions where
  type : TypeOptions
deriving DecidableEq

/-- The argument object passed to a `beforeChangeNode` hook (the remaining
fields of the JavaScript argument object are capabilities handed to the hook,
irrelevant to its observable result). -/
structure BeforeChangeNodeArgs where
  actionType : String
  remoteNode : MaterializedNode
  type : String

/-- The (optional) result object of a `beforeChangeNode` hook. -/
structure HookReturn where
  additionalNodeIds : Option (List String)

/-- Per-type settings returned by `getTypeSettingsByType`; a hook returning
`none` models a hook that resolved to `undefined`. -/
structure TypeSettings where
  beforeChangeNode : Option (BeforeChangeNodeArgs → Option HookReturn)

/-- The host environment of the materializer: plugin options plus the external
collaborators imported by `create-nodes.js` from modules outside `src/`
(`urlToPath`, Gatsby's `createContentDigest`, and the schema-customization
helpers `buildTypeName` and `getTypeSettingsByType`), modelled opaquely. -/
structure Host where
  pluginOptions : PluginOptions
  urlToPath : String → String
  createContentDigest : RawRecord → String
  buildTypeName : String → String
  getTypeSettingsByType : String → Option TypeSettings

/-- Mutable state threaded through `createGatsbyNodesFromWPGQLContentNodes`:
the committed-ids ledger, the side-effect counter, the referenced-media id set
(a JavaScript `Set`, kept as an insertion-ordered duplicate-free list), the
nodes committed via `actions.createNode`, and the event trace. -/
structure CNState where
  createdNodeIds : List String
  totalSideEffectNodes : List String
  referencedMediaItemNodeIds : List String
  committedNodes : List MaterializedNode
  events : List Event
deriving DecidableEq

/-! ## Deterministic serialization (`fast-json-stable-stringify`)

The materializer serializes each record with stable (sorted) key order before
scanning it for embedded media references.  Field values are opaque raw
serialization fragments, pasted verbatim. -/

/-- Wrap a string in JSON quotes. -/
def quoteJson (s : String) : String := "\"" ++ s ++ "\""

/-- One `"key":value` entry of the serialized object. -/
def jsonEntryText (kv : String × String) : String :=
  quoteJson kv.1 ++ ":" ++ kv.2

/-- Lexicographic strict comparison of two character lists by code point. -/
def charListLt : List Char → List Char → Bool
  | [], [] => false
  | [], _ :: _ => true
  | _ :: _, [] => false
  | a :: as, b :: bs =>
    if a.toNat < b.toNat then true
    else if b.toNat < a.toNat then false
    else charListLt as bs

/-- Insert an entry into a key-sorted entry list. -/
def insertEntry (p : String × String) : List (String × String) → List (String × String)
  | [] => [p]
  | q :: qs => if charListLt p.1.toList q.1.toList then p :: q :: qs else q :: insertEntry p qs

/-- Sort entries by key (stable key ordering of
`fast-json-stable-stringify`). -/
def sortEntries (l : List (String × String)) : List (String × String) :=
  l.foldr insertEntry []

/-- The key/value entries of a record, including the derived `path` when
present. -/
def nodeEntries (node : RawRecord) : List (String × String) :=
  [("id", quoteJson node.id), ("type", quoteJson node.type)]
    ++ (match node.link with | some l => [("link", quoteJson l)] | none => [])
    ++ (match node.path with | some p => [("path", quoteJson p)] | none => [])
    ++ node.fields

/-- `stringify(node)`: deterministic, key-sorted serialization of a record. -/
def stringifyNode (node : RawRecord) : String :=
  "\x7b" ++ String.intercalate "," ((sortEntries (nodeEntries node)).map jsonEntryText)
    ++ "\x7d"

/-! ## The embedded-reference scan (`execall(/"id":"([^"]*)","sourceUrl"/gm, ...)`) -/

/-- Does the second list start with the first? -/
def listStartsWith : List Char → List Char → Bool
  | [], _ => true
  | _ :: _, [] => false
  | p :: ps, c :: cs => p == c && listStartsWith ps cs

/-- The literal part of the scan pattern before the capture group:
`"id":"`. -/
def patPre : List Char := ("\"id\":\"").toList

/-- The literal part of the scan pattern after the capture group:
`","sourceUrl"`. -/
def patSuf : List Char := ("\",\"sourceUrl\"").toList

/-- Try to match `"id":"([^"]*)","sourceUrl"` at the head of the character
list; on success return the captured id and the remainder after the match. -/
def matchIdSourceUrlAt (s : List Char) : Option (List Char × List Char) :=
  if listStartsWith patPre s then
    let rest := (s.drop patPre.length)
    let cap := rest.takeWhile (fun c => c != '\"')
    let rest2 := rest.drop cap.length
    if listStartsWith patSuf rest2 then some (cap, rest2.drop patSuf.length) else none
  else none

/-- Fuel-indexed scan loop: slide over the string, collecting every
(non-overlapping) match of the pattern, resuming after each match exactly as a
global JavaScript regex does.  The fuel only bounds the recursion; each step
consumes at least one character, so `fuel = length` never truncates. -/
def execallIdSourceUrlAux : Nat → List Char → List String
  | 0, _ => []
  | _ + 1, [] => []
  | fuel + 1, c :: cs =>
    match matchIdSourceUrlAt (c :: cs) with
    | some (cap, rest) => String.mk cap :: execallIdSourceUrlAux fuel rest
    | none => execallIdSourceUrlAux fuel cs

/-- All ids captured by `execall(/"id":"([^"]*)","sourceUrl"/gm, s)`, in match
order. -/
def execallScan (s : String) : List String :=
  execallIdSourceUrlAux s.toList.length s.toList

/-- `Set.prototype.add` on an insertion-ordered duplicate-free list. -/
def setAdd (s : List String) (id : String) : List String :=
  if id ∈ s then s else s ++ [id]

/-! ## The materialization unit (`createNodeWithSideEffects`) -/

/-- Step 1 of the unit: `if (node.link) node.path = urlToPath(node.link)`. -/
def applyUrlToPath (host : Host) (node : RawRecord) : RawRecord :=
  match node.link with
  | some link => { node with path := some (host.urlToPath link) }
  | none => node

/-- Step 2 of the unit: unless the current group is the `mediaItems` group, and
unless `pluginOptions.type.MediaItem.lazyNodes` is set, serialize the record,
collect every captured id other than the record's own id, and add each to the
shared referenced-media id set. -/
def scanStep (host : Host) (plural : String) (node : RawRecord) (st : CNState) : CNState :=
  if plural != "mediaItems" then
    if !host.pluginOptions.type.MediaItem.lazyNodes then
      let nodeString := stringifyNode node
      let matchedIds := (execallScan nodeString).filter (fun id => id != node.id)
      { st with
        referencedMediaItemNodeIds := matchedIds.foldl setAdd st.referencedMediaItemNodeIds
        events := st.events ++ [Event.scanRecord node.id] }
    else st
  else st

/-- Step 3 of the unit: the `remoteNode` object — all record fields spread in,
`parent` forced to `null`, `internal.contentDigest` computed over the record
itself and `internal.type` via the stable type-name builder. -/
def buildRemoteNode (host : Host) (node : RawRecord) : MaterializedNode :=
  { id := node.id
    type := node.type
    link := node.link
    path := node.path
    fields := node.fields
    parent := none
    internal :=
      { contentDigest := host.createContentDigest node
        type := host.buildTypeName node.type } }

/-- Look up the type settings and, when a `beforeChangeNode` hook is
configured, run it: `none` means no hook is configured; `some x` means the hook
was invoked and `x` is the `additionalNodeIds` field of
`(await typeSettings.beforeChangeNode(...)) || {}`. -/
def hookAdditionalNodeIds (host : Host) (remoteNode : MaterializedNode)
    (nodeType : String) : Option (Option (List String)) :=
  match (host.getTypeSettingsByType nodeType).bind (fun ts => ts.beforeChangeNode) with
  | some beforeChangeNode =>
    some (match beforeChangeNode
            { actionType := "CREATE_ALL", remoteNode := remoteNode, type := nodeType } with
          | some r => r.additionalNodeIds
          | none => none)
  | none => none

/-- Step 4 of the unit: invoke the configured `beforeChangeNode` hook (if any)
and push every reported additional node id onto both the committed-ids ledger
and the side-effect counter. -/
def hookStep (host : Host) (remoteNode : MaterializedNode) (nodeType : String)
    (st : CNState) : CNState :=
  match hookAdditionalNodeIds host remoteNode nodeType with
  | none => st
  | some additionalNodeIds =>
    let st := { st with events := st.events ++ [Event.hookInvoked remoteNode.id] }
    match additionalNodeIds with
    | some ids =>
      if !ids.isEmpty then
        { st with
          createdNodeIds := st.createdNodeIds ++ ids
          totalSideEffectNodes := st.totalSideEffectNodes ++ ids
          events := st.events ++ ids.map Event.pushAdditionalId }
      else st
    | none => st

/-- Step 5 of the unit: `await actions.createNode(remoteNode)` followed by
`createdNodeIds.push(node.id)`. -/
def commitStep (remoteNode : MaterializedNode) (ownId : String) (st : CNState) : CNState :=
  { st with
    committedNodes := st.committedNodes ++ [remoteNode]
    createdNodeIds := st.createdNodeIds ++ [ownId]
    events := st.events ++ [Event.createNode remoteNode.id, Event.pushOwnId ownId] }

/-- One queued unit of `createNodeWithSideEffects`, embedded as a state
transformer: derive the path, scan for embedded media references, build the
`remoteNode`, run the optional hook, then commit the node and push its id. -/
def createNodeWithSideEffects (host : Host) (wpgqlNodesGroup : ContentNodeGroup)
    (node : RawRecord) (st : CNState) : CNState :=
  let node := applyUrlToPath host node
  let st := scanStep host wpgqlNodesGroup.plural node st
  let remoteNode := buildRemoteNode host node
  let st := hookStep host remoteNode node.type st
  commitStep remoteNode node.id st

/-- Drain the units queued for one content-node group, in scheduling order. -/
def materializeGroup (host : Host) (wpgqlNodesGroup : ContentNodeGroup)
    (st : CNState) : CNState :=
  wpgqlNodesGroup.allNodesOfContentType.foldl
    (fun st node => createNodeWithSideEffects host wpgqlNodesGroup node st) st

/-- Drain the whole `createNodesQueue`: every record of every group, queued in
group iteration order, then awaited via `onIdle`. -/
def materializeAll (host : Host) (wpgqlNodesByContentType : List ContentNodeGroup)
    (st : CNState) : CNState :=
  wpgqlNodesByContentType.foldl
    (fun st wpgqlNodesGroup => materializeGroup host wpgqlNodesGroup st) st

/-- The state at entry of `createGatsbyNodesFromWPGQLContentNodes`: fresh
ledgers plus the trace of the initial `generalSettings { url }` query. -/
def initialCreateState : CNState :=
  { createdNodeIds := []
    totalSideEffectNodes := []
    referencedMediaItemNodeIds := []
    committedNodes := []
    events := [Event.fetchGeneralSettings] }

/-- `createGatsbyNodesFromWPGQLContentNodes`: materialize every group, then —
when media items are not lazy and some referenced media ids were discovered —
run the reference-expansion fetch and return the ledger followed by the
deduplicated referenced ids; otherwise return the ledger alone. -/
def createGatsbyNodesFromWPGQLContentNodes (host : Host)
    (wpgqlNodesByContentType : List ContentNodeGroup) : List String × CNState :=
  let st := materializeAll host wpgqlNodesByContentType initialCreateState
  let referencedMediaItemNodeIdsArray := st.referencedMediaItemNodeIds
  if !host.pluginOptions.type.MediaItem.lazyNodes
      && !referencedMediaItemNodeIdsArray.isEmpty then
    (st.createdNodeIds ++ referencedMediaItemNodeIdsArray,
     { st with events := st.events ++ [Event.expansionFetch referencedMediaItemNodeIdsArray] })
  else
    (st.createdNodeIds, st)

/-! ## The content-type orchestrator (`fetch-nodes`) -/

/-- The run environment of the orchestrator: the query catalog
(`store.getState().remoteSchema.nodeQueries`), the
`GATSBY_CONCURRENT_DOWNLOAD` environment override (`none` when unset or empty,
`some n` when set to a string converting to the integer `n`), and the external
`paginatedWpNodeFetch` collaborator, modelled as the full paginated record list
it yields for one list query of one type. -/
structure Env where
  nodeQueries : List QueryInfo
  GATSBY_CONCURRENT_DOWNLOAD : Option Nat
  paginatedWpNodeFetch : String → TypeInfo → List RawRecord

/-- All records yielded by the list queries of one catalog entry, concatenated
in query order. -/
def fetchNodeLists (env : Env) (queryInfo : QueryInfo) : List RawRecord :=
  queryInfo.nodeListQueries.foldl
    (fun allNodesOfContentType nodeListQuery =>
      allNodesOfContentType ++ env.paginatedWpNodeFetch nodeListQuery queryInfo.typeInfo) []

/-- `fetchWPGQLContentNodes`: paginate every list query of the entry and build
one `ContentNodeGroup`, or return `false` (here `none`) when no records were
yielded. -/
def fetchWPGQLContentNodes (env : Env) (queryInfo : QueryInfo) : Option ContentNodeGroup :=
  let allNodesOfContentType := fetchNodeLists env queryInfo
  if !allNodesOfContentType.isEmpty then
    some
      { singular := queryInfo.typeInfo.singularName
        plural := queryInfo.typeInfo.pluralName
        allNodesOfContentType := allNodesOfContentType }
  else none

/-- `getContentTypeQueryInfos`: the catalog filtered to entries whose settings
do not exclude them. -/
def getContentTypeQueryInfos (nodeQueries : List QueryInfo) : List QueryInfo :=
  nodeQueries.filter (fun q => !q.settings.exclude)

/-- `process.env.GATSBY_CONCURRENT_DOWNLOAD || 50`: the override when set (a
set-but-zero value stays zero, since the string "0" is truthy), else 50. -/
def resolveChunkSize : Option Nat → Nat
  | some n => n
  | none => 50

/-- Fuel-indexed body of lodash `chunk`; each step consumes `size` elements, so
`fuel = length` never truncates. -/
def chunkListAux {α : Type} : Nat → Nat → List α → List (List α)
  | 0, _, _ => []
  | _ + 1, _, [] => []
  | fuel + 1, size, x :: xs =>
    if size = 0 then []
    else (x :: xs).take size :: chunkListAux fuel size ((x :: xs).drop size)

/-- lodash `chunk(array, size)`: consecutive batches of `size` elements (the
last batch possibly smaller); `chunk(array, 0)` is the empty list. -/
def chunkList {α : Type} (size : Nat) (l : List α) : List (List α) :=
  chunkListAux l.length size l

/-- The skip condition inside the orchestrator's batch map: lazy types, and the
`MediaItem` type when not lazy, get no upfront fetch. -/
def shouldSkipUpfrontFetch (queryInfo : QueryInfo) : Bool :=
  queryInfo.settings.lazyNodes
    || (!queryInfo.settings.lazyNodes && queryInfo.typeInfo.nodesTypeName == "MediaItem")

/-- The contribution of one catalog entry within a batch: either skipped, or
fetched upfront — pushing its group when at least one record was yielded. -/
def fetchTypeResult (env : Env) (queryInfo : QueryInfo) :
    List ContentNodeGroup × List Event :=
  if shouldSkipUpfrontFetch queryInfo then ([], [])
  else
    match fetchWPGQLContentNodes env queryInfo with
    | some contentNodeGroup => ([contentNodeGroup], [Event.fetchType queryInfo])
    | none => ([], [Event.fetchType queryInfo])

/-- The contribution of one batch: the `Promise.all` fan-out over its entries,
drained in batch order. -/
def batchResult (env : Env) (queries : List QueryInfo) :
    List ContentNodeGroup × List Event :=
  (((queries.map (fetchTypeResult env)).map Prod.fst).flatten,
   ((queries.map (fetchTypeResult env)).map Prod.snd).flatten)

/-- `fetchWPGQLContentNodesByContentType`: filter the catalog, chunk it by the
concurrency override (default 50), and fetch batch after batch, each batch
joining before the next starts. -/
def fetchWPGQLContentNodesByContentType (env : Env) :
    List ContentNodeGroup × List Event :=
  let nodeQueries := getContentTypeQueryInfos env.nodeQueries
  let chunkedQueries := chunkList (resolveChunkSize env.GATSBY_CONCURRENT_DOWNLOAD) nodeQueries
  (((chunkedQueries.map (batchResult env)).map Prod.fst).flatten,
   ((chunkedQueries.map (batchResult env)).map Prod.snd).flatten)

/-! ## The ingestion driver (`fetchAndCreateAllNodes`) -/

/-- Modelled from the spec: the cache key constant `CREATED_NODE_IDS` imported
from `~/constants`, a module not under `src/`; the spec names the persisted
entry `CREATED_NODE_IDS -> [id]`, and downstream only its identity matters. -/
def CREATED_NODE_IDS : String := "CREATED_NODE_IDS"

/-- The observable outcome of one full run. -/
structure RunResult where
  createdNodeIds : List String
  events : List Event
deriving DecidableEq

/-- `fetchAndCreateAllNodes`: fetch all upfront content nodes, materialize them
(including the reference-expansion fetch), then persist the final ledger under
`CREATED_NODE_IDS`. -/
def fetchAndCreateAllNodes (env : Env) (host : Host) : RunResult :=
  let fetched := fetchWPGQLContentNodesByContentType env
  let created := createGatsbyNodesFromWPGQLContentNodes host fetched.fst
  { createdNodeIds := created.fst
    events := fetched.snd ++ created.snd.events
      ++ [Event.cacheSet CREATED_NODE_IDS created.fst] }

/-! ## Event-stage classification -/

/-- Events emitted while the orchestrator performs the upfront type fetches. -/
def Event.inUpfrontFetchStage : Event → Bool
  | .fetchType _ => true
  | _ => false

/-- Events emitted while `createGatsbyNodesFromWPGQLContentNodes` runs its
primary pass (the initial settings query and the queued units), before the
reference-expansion fetch. -/
def Event.inCreateStage : Event → Bool
  | .fetchGeneralSettings => true
  | .scanRecord _ => true
  | .hookInvoked _ => true
  | .pushAdditionalId _ => true
  | .createNode _ => true
  | .pushOwnId _ => true
  | _ => false

/-! ## Basic lemmas about the unit steps -/

theorem applyUrlToPath_id (host : Host) (node : RawRecord) :
    (applyUrlToPath host node).id = node.id := by
  obtain ⟨i, t, l, p, f⟩ := node; unfold applyUrlToPath; cases l <;> rfl

theorem applyUrlToPath_type (host : Host) (node : RawRecord) :
    (applyUrlToPath host node).type = node.type := by
  obtain ⟨i, t, l, p, f⟩ := node; unfold applyUrlToPath; cases l <;> rfl

theorem applyUrlToPath_link (host : Host) (node : RawRecord) :
    (applyUrlToPath host node).link = node.link := by
  obtain ⟨i, t, l, p, f⟩ := node; unfold applyUrlToPath; cases l <;> rfl

theorem applyUrlToPath_fields (host : Host) (node : RawRecord) :
    (applyUrlToPath host node).fields = node.fields := by
  obtain ⟨i, t, l, p, f⟩ := node; unfold applyUrlToPath; cases l <;> rfl

theorem scanStep_createdNodeIds (host : Host) (plural : String) (node : RawRecord)
    (st : CNState) : (scanStep host plural node st).createdNodeIds = st.createdNodeIds := by
  unfold scanStep
  split
  · split
    · rfl
    · rfl
  · rfl

theorem scanStep_totalSideEffectNodes (host : Host) (plural : String) (node : RawRecord)
    (st : CNState) :
    (scanStep host plural node st).totalSideEffectNodes = st.totalSideEffectNodes := by
  unfold scanStep
  split
  · split
    · rfl
    · rfl
  · rfl

theorem scanStep_committedNodes (host : Host) (plural : String) (node : RawRecord)
    (st : CNState) : (scanStep host plural node st).committedNodes = st.committedNodes := by
  unfold scanStep
  split
  · split
    · rfl
    · rfl
  · rfl

theorem hookStep_referencedMediaItemNodeIds (host : Host) (remoteNode : MaterializedNode)
    (nodeType : String) (st : CNState) :
    (hookStep host remoteNode nodeType st).referencedMediaItemNodeIds
      = st.referencedMediaItemNodeIds := by
  unfold hookStep
  split
  · rfl
  · split
    · split
      · rfl
      · rfl
    · rfl

theorem hookStep_committedNodes (host : Host) (remoteNode : MaterializedNode)
    (nodeType : String) (st : CNState) :
    (hookStep host remoteNode nodeType st).committedNodes = st.committedNodes := by
  unfold hookStep
  split
  · rfl
  · split
    · split
      · rfl
      · rfl
    · rfl

theorem commitStep_referencedMediaItemNodeIds (remoteNode : MaterializedNode)
    (ownId : String) (st : CNState) :
    (commitStep remoteNode ownId st).referencedMediaItemNodeIds
      = st.referencedMediaItemNodeIds := rfl

theorem commitStep_committedNodes (remoteNode : MaterializedNode) (ownId : String)
    (st : CNState) :
    (commitStep remoteNode ownId st).committedNodes = st.committedNodes ++ [remoteNode] := rfl

/-! ## Lemmas about `setAdd` -/

theorem mem_setAdd (s : List String) (i x : String) :
    x ∈ setAdd s i ↔ x ∈ s ∨ x = i := by
  unfold setAdd
  split
  · rename_i h
    constructor
    · exact Or.inl
    · rintro (hx | rfl)
      · exact hx
      · exact h
  · simp

theorem mem_foldl_setAdd (l : List String) (s : List String) (x : String) :
    x ∈ l.foldl setAdd s ↔ x ∈ s ∨ x ∈ l := by
  induction l generalizing s with
  | nil => simp
  | cons a l ih =>
    simp only [List.foldl_cons, ih, mem_setAdd, List.mem_cons]
    tauto

theorem nodup_setAdd (s : List String) (i : String) (h : s.Nodup) :
    (setAdd s i).Nodup := by
  unfold setAdd
  split
  · exact h
  · rename_i hni
    simpa [List.nodup_append] using ⟨h, fun hx => hni hx⟩

theorem nodup_foldl_setAdd (l : List String) (s : List String) (h : s.Nodup) :
    (l.foldl setAdd s).Nodup := by
  induction l generalizing s with
  | nil => exact h
  | cons a l ih => exact ih _ (nodup_setAdd _ _ h)

/-! ## Event traces of the unit steps -/

theorem scanStep_events_seg (host : Host) (plural : String) (node : RawRecord)
    (st : CNState) :
    ∃ seg, (scanStep host plural node st).events = st.events ++ seg
      ∧ ∀ e ∈ seg, e.inCreateStage = true := by
  unfold scanStep
  split
  · split
    · exact ⟨[Event.scanRecord node.id], rfl, by intro e he; simp at he; subst he; rfl⟩
    · exact ⟨[], by simp, by simp⟩
  · exact ⟨[], by simp, by simp⟩

theorem hookStep_events_seg (host : Host) (remoteNode : MaterializedNode)
    (nodeType : String) (st : CNState) :
    ∃ seg, (hookStep host remoteNode nodeType st).events = st.events ++ seg
      ∧ ∀ e ∈ seg, e.inCreateStage = true := by
  unfold hookStep
  split
  · exact ⟨[], by simp, by simp⟩
  · split
    · split
      · rename_i ids heq hne
        refine ⟨Event.hookInvoked remoteNode.id :: List.map Event.pushAdditionalId ids,
          by simp, ?_⟩
        intro e he
        rcases List.mem_cons.mp he with rfl | hm
        · rfl
        · obtain ⟨i, _, rfl⟩ := List.mem_map.mp hm
          rfl
      · exact ⟨[Event.hookInvoked remoteNode.id], rfl,
          by intro e he; simp at he; subst he; rfl⟩
    · exact ⟨[Event.hookInvoked remoteNode.id], rfl,
        by intro e he; simp at he; subst he; rfl⟩

theorem commitStep_events_seg (remoteNode : MaterializedNode) (ownId : String)
    (st : CNState) :
    ∃ seg, (commitStep remoteNode ownId st).events = st.events ++ seg
      ∧ ∀ e ∈ seg, e.inCreateStage = true := by
  refine ⟨[Event.createNode remoteNode.id, Event.pushOwnId ownId], rfl, ?_⟩
  intro e he
  rcases List.mem_cons.mp he with rfl | he
  · rfl
  · simp at he; subst he; rfl

theorem createNodeWithSideEffects_events_seg (host : Host)
    (wpgqlNodesGroup : ContentNodeGroup) (node : RawRecord) (st : CNState) :
    ∃ seg, (createNodeWithSideEffects host wpgqlNodesGroup node st).events
        = st.events ++ seg
      ∧ ∀ e ∈ seg, e.inCreateStage = true := by
  unfold createNodeWithSideEffects
  obtain ⟨s1, h1, hm1⟩ := scanStep_events_seg host wpgqlNodesGroup.plural
    (applyUrlToPath host node) st
  obtain ⟨s2, h2, hm2⟩ := hookStep_events_seg host
    (buildRemoteNode host (applyUrlToPath host node)) (applyUrlToPath host node).type
    (scanStep host wpgqlNodesGroup.plural (applyUrlToPath host node) st)
  obtain ⟨s3, h3, hm3⟩ := commitStep_events_seg
    (buildRemoteNode host (applyUrlToPath host node)) (applyUrlToPath host node).id
    (hookStep host (buildRemoteNode host (applyUrlToPath host node))
      (applyUrlToPath host node).type
      (scanStep host wpgqlNodesGroup.plural (applyUrlToPath host node) st))
  refine ⟨s1 ++ s2 ++ s3, ?_, ?_⟩
  · rw [h3, h2, h1]; simp [List.append_assoc]
  · intro e he
    rcases List.mem_append.mp he with he | he
    · rcases List.mem_append.mp he with he | he
      · exact hm1 e he
      · exact hm2 e he
    · exact hm3 e he

theorem materializeGroup_events_seg (host : Host) (wpgqlNodesGroup : ContentNodeGroup)
    (st : CNState) :
    ∃ seg, (materializeGroup host wpgqlNodesGroup st).events = st.events ++ seg
      ∧ ∀ e ∈ seg, e.inCreateStage = true := by
  unfold materializeGroup
  generalize wpgqlNodesGroup.allNodesOfContentType = nodes
  induction nodes generalizing st with
  | nil => exact ⟨[], by simp, by simp⟩
  | cons n ns ih =>
    obtain ⟨s1, h1, hm1⟩ := createNodeWithSideEffects_events_seg host wpgqlNodesGroup n st
    obtain ⟨s2, h2, hm2⟩ := ih (createNodeWithSideEffects host wpgqlNodesGroup n st)
    refine ⟨s1 ++ s2, ?_, ?_⟩
    · simp only [List.foldl_cons, h2, h1, List.append_assoc]
    · intro e he
      rcases List.mem_append.mp he with he | he
      · exact hm1 e he
      · exact hm2 e he

theorem materializeAll_events_seg (host : Host)
    (wpgqlNodesByContentType : List ContentNodeGroup) (st : CNState) :
    ∃ seg, (materializeAll host wpgqlNodesByContentType st).events = st.events ++ seg
      ∧ ∀ e ∈ seg, e.inCreateStage = true := by
  unfold materializeAll
  induction wpgqlNodesByContentType generalizing st with
  | nil => exact ⟨[], by simp, by simp⟩
  | cons g gs ih =>
    obtain ⟨s1, h1, hm1⟩ := materializeGroup_events_seg host g st
    obtain ⟨s2, h2, hm2⟩ := ih (materializeGroup host g st)
    refine ⟨s1 ++ s2, ?_, ?_⟩
    · simp only [List.foldl_cons, h2, h1, List.append_assoc]
    · intro e he
      rcases List.mem_append.mp he with he | he
      · exact hm1 e he
      · exact hm2 e he

/-! ## Duplicate-freeness of the referenced-media id set -/

theorem scanStep_refs_nodup (host : Host) (plural : String) (node : RawRecord)
    (st : CNState) (h : st.referencedMediaItemNodeIds.Nodup) :
    (scanStep host plural node st).referencedMediaItemNodeIds.Nodup := by
  unfold scanStep
  split
  · split
    · exact nodup_foldl_setAdd _ _ h
    · exact h
  · exact h

theorem createNodeWithSideEffects_refs_nodup (host : Host)
    (wpgqlNodesGroup : ContentNodeGroup) (node : RawRecord) (st : CNState)
    (h : st.referencedMediaItemNodeIds.Nodup) :
    (createNodeWithSideEffects host wpgqlNodesGroup node st).referencedMediaItemNodeIds.Nodup := by
  unfold createNodeWithSideEffects
  rw [commitStep_referencedMediaItemNodeIds, hookStep_referencedMediaItemNodeIds]
  exact scanStep_refs_nodup _ _ _ _ h

theorem materializeGroup_refs_nodup (host : Host) (wpgqlNodesGroup : ContentNodeGroup)
    (st : CNState) (h : st.referencedMediaItemNodeIds.Nodup) :
    (materializeGroup host wpgqlNodesGroup st).referencedMediaItemNodeIds.Nodup := by
  unfold materializeGroup
  generalize wpgqlNodesGroup.allNodesOfContentType = nodes
  induction nodes generalizing st with
  | nil => exact h
  | cons n ns ih => exact ih _ (createNodeWithSideEffects_refs_nodup _ _ _ _ h)

theorem materializeAll_refs_nodup (host : Host)
    (wpgqlNodesByContentType : List ContentNodeGroup) (st : CNState)
    (h : st.referencedMediaItemNodeIds.Nodup) :
    (materializeAll host wpgqlNodesByContentType st).referencedMediaItemNodeIds.Nodup := by
  unfold materializeAll
  induction wpgqlNodesByContentType generalizing st with
  | nil => exact h
  | cons g gs ih => exact ih _ (materializeGroup_refs_nodup _ _ _ h)

/-! ## Characterizations of the scan branch -/

theorem scanStep_eager (host : Host) (plural : String) (node : RawRecord) (st : CNState)
    (hpl : plural ≠ "mediaItems")
    (hlazy : host.pluginOptions.type.MediaItem.lazyNodes = false) :
    scanStep host plural node st =
      { st with
        referencedMediaItemNodeIds :=
          ((execallScan (stringifyNode node)).filter
            (fun id => id != node.id)).foldl setAdd st.referencedMediaItemNodeIds
        events := st.events ++ [Event.scanRecord node.id] } := by
  unfold scanStep
  have h1 : (plural != "mediaItems") = true := by simp [hpl]
  have h2 : (!host.pluginOptions.type.MediaItem.lazyNodes) = true := by simp [hlazy]
  rw [if_pos h1, if_pos h2]

theorem scanStep_lazy (host : Host) (plural : String) (node : RawRecord) (st : CNState)
    (hlazy : host.pluginOptions.type.MediaItem.lazyNodes = true) :
    scanStep host plural node st = st := by
  unfold scanStep
  split
  · rw [if_neg]
    simp [hlazy]
  · rfl

theorem hookStep_count_scanRecord (host : Host) (remoteNode : MaterializedNode)
    (nodeType : String) (st : CNState) (i : String) :
    (hookStep host remoteNode nodeType st).events.count (Event.scanRecord i)
      = st.events.count (Event.scanRecord i) := by
  unfold hookStep
  split
  · rfl
  · split
    · split
      · simp [List.count_append, List.count_eq_zero, List.mem_map]
      · simp [List.count_append, List.count_eq_zero]
    · simp [List.count_append, List.count_eq_zero]

theorem commitStep_count_scanRecord (remoteNode : MaterializedNode) (ownId : String)
    (st : CNState) (i : String) :
    (commitStep remoteNode ownId st).events.count (Event.scanRecord i)
      = st.events.count (Event.scanRecord i) := by
  unfold commitStep
  simp [List.count_append, List.count_eq_zero]

theorem createNodeWithSideEffects_refs_eager (host : Host)
    (wpgqlNodesGroup : ContentNodeGroup) (node : RawRecord) (st : CNState)
    (hpl : wpgqlNodesGroup.plural ≠ "mediaItems")
    (hlazy : host.pluginOptions.type.MediaItem.lazyNodes = false) :
    (createNodeWithSideEffects host wpgqlNodesGroup node st).referencedMediaItemNodeIds
      = ((execallScan (stringifyNode (applyUrlToPath host node))).filter
          (fun id => id != node.id)).foldl setAdd st.referencedMediaItemNodeIds := by
  unfold createNodeWithSideEffects
  rw [commitStep_referencedMediaItemNodeIds, hookStep_referencedMediaItemNodeIds,
    scanStep_eager host _ _ _ hpl hlazy, applyUrlToPath_id]

theorem createNodeWithSideEffects_refs_lazy (host : Host)
    (wpgqlNodesGroup : ContentNodeGroup) (node : RawRecord) (st : CNState)
    (hlazy : host.pluginOptions.type.MediaItem.lazyNodes = true) :
    (createNodeWithSideEffects host wpgqlNodesGroup node st).referencedMediaItemNodeIds
      = st.referencedMediaItemNodeIds := by
  unfold createNodeWithSideEffects
  rw [commitStep_referencedMediaItemNodeIds, hookStep_referencedMediaItemNodeIds,
    scanStep_lazy host _ _ _ hlazy]

/-! ## Concrete fixtures -/

/-- A host with eager (non-lazy) media resolution and no hooks. -/
def hostEagerNoHook : Host :=
  { pluginOptions := { type := { MediaItem := { lazyNodes := false } } }
    urlToPath := fun s => s
    createContentDigest := fun _ => "digest"
    buildTypeName := fun t => String.append "Wp" t
    getTypeSettingsByType := fun _ => none }

/-- A host with lazy media resolution and no hooks. -/
def hostLazyNoHook : Host :=
  { pluginOptions := { type := { MediaItem := { lazyNodes := true } } }
    urlToPath := fun s => s
    createContentDigest := fun _ => "digest"
    buildTypeName := fun t => String.append "Wp" t
    getTypeSettingsByType := fun _ => none }

/-- A record of a non-media type whose serialized content embeds one media
reference (`"id":"m1","sourceUrl"`). -/
def recordWithMediaRef : RawRecord :=
  { id := "p1", type := "Post", link := none, path := none
    fields := [("content", "\"id\":\"m1\",\"sourceUrl\"")] }

/-- The `posts` group holding `recordWithMediaRef` alone. -/
def postsGroupWithMediaRef : ContentNodeGroup :=
  { singular := "post", plural := "posts", allNodesOfContentType := [recordWithMediaRef] }

/-- A fresh materialization state with an empty trace. -/
def emptyCNState : CNState :=
  { createdNodeIds := [], totalSideEffectNodes := [], referencedMediaItemNodeIds := []
    committedNodes := [], events := [] }

/-! ## Characterizations of the hook branch -/

theorem hookAdditionalNodeIds_of_hook (host : Host) (remoteNode : MaterializedNode)
    (nodeType : String) (hookFn : BeforeChangeNodeArgs → Option HookReturn)
    (hcfg : (host.getTypeSettingsByType nodeType).bind (fun ts => ts.beforeChangeNode)
      = some hookFn) :
    hookAdditionalNodeIds host remoteNode nodeType
      = some (match hookFn
            { actionType := "CREATE_ALL", remoteNode := remoteNode, type := nodeType } with
          | some r => r.additionalNodeIds
          | none => none) := by
  unfold hookAdditionalNodeIds
  rw [hcfg]

theorem hookStep_some_ids (host : Host) (remoteNode : MaterializedNode)
    (nodeType : String) (st : CNState) (ids : List String)
    (h : hookAdditionalNodeIds host remoteNode nodeType = some (some ids))
    (hne : ids ≠ []) :
    hookStep host remoteNode nodeType st =
      { st with
        createdNodeIds := st.createdNodeIds ++ ids
        totalSideEffectNodes := st.totalSideEffectNodes ++ ids
        events := (st.events ++ [Event.hookInvoked remoteNode.id])
          ++ ids.map Event.pushAdditionalId } := by
  have hie : ids.isEmpty = false := by
    cases ids
    · exact absurd rfl hne
    · rfl
  unfold hookStep
  rw [h]
  simp [hie]

theorem hookStep_none_ids (host : Host) (remoteNode : MaterializedNode)
    (nodeType : String) (st : CNState)
    (h : hookAdditionalNodeIds host remoteNode nodeType = some none) :
    hookStep host remoteNode nodeType st =
      { st with events := st.events ++ [Event.hookInvoked remoteNode.id] } := by
  unfold hookStep
  rw [h]

theorem hookStep_no_hook (host : Host) (remoteNode : MaterializedNode)
    (nodeType : String) (st : CNState)
    (h : hookAdditionalNodeIds host remoteNode nodeType = none) :
    hookStep host remoteNode nodeType st = st := by
  unfold hookStep
  rw [h]

theorem createNodeWithSideEffects_eq (host : Host) (wpgqlNodesGroup : ContentNodeGroup)
    (node : RawRecord) (st : CNState) :
    createNodeWithSideEffects host wpgqlNodesGroup node st
      = commitStep (buildRemoteNode host (applyUrlToPath host node))
          (applyUrlToPath host node).id
          (hookStep host (buildRemoteNode host (applyUrlToPath host node))
            (applyUrlToPath host node).type
            (scanStep host wpgqlNodesGroup.plural (applyUrlToPath host node) st)) := rfl

theorem commitStep_createdNodeIds (remoteNode : MaterializedNode) (ownId : String)
    (st : CNState) :
    (commitStep remoteNode ownId st).createdNodeIds = st.createdNodeIds ++ [ownId] := rfl

theorem commitStep_totalSideEffectNodes (remoteNode : MaterializedNode) (ownId : String)
    (st : CNState) :
    (commitStep remoteNode ownId st).totalSideEffectNodes = st.totalSideEffectNodes := rfl

theorem commitStep_events (remoteNode : MaterializedNode) (ownId : String)
    (st : CNState) :
    (commitStep remoteNode ownId st).events
      = st.events ++ [Event.createNode remoteNode.id, Event.pushOwnId ownId] := rfl

theorem buildRemoteNode_id (host : Host) (node : RawRecord) :
    (buildRemoteNode host node).id = node.id := rfl

/-! ## Claim C1 -/

/-- C1 (counterexample): with the eager (non-lazy) MediaItem setting the
embedded-reference scan of a non-media record is NOT skipped — it runs and adds
the embedded foreign id to the ReferencedEntityIdSet — while with the lazy
setting it is the scan that is skipped.  This refutes the claim that the scan
is performed when the setting is lazy and skipped when it is eager. -/
theorem referenceScan_not_skipped_when_eager :
    hostEagerNoHook.pluginOptions.type.MediaItem.lazyNodes = false
    ∧ postsGroupWithMediaRef.plural ≠ "mediaItems"
    ∧ (createNodeWithSideEffects hostEagerNoHook postsGroupWithMediaRef recordWithMediaRef
        emptyCNState).referencedMediaItemNodeIds = ["m1"]
    ∧ hostLazyNoHook.pluginOptions.type.MediaItem.lazyNodes = true
    ∧ (createNodeWithSideEffects hostLazyNoHook postsGroupWithMediaRef recordWithMediaRef
        emptyCNState).referencedMediaItemNodeIds = [] :=
  ⟨rfl, by decide, by decide, rfl, by decide⟩

/-- C1 (amended): for every record materialized in a non-media group, the
embedded-reference scan is performed exactly when the host's MediaItem setting
is eager (non-lazy), and is skipped entirely — leaving the
ReferencedEntityIdSet untouched — when the MediaItem setting is lazy. -/
theorem referenceScan_iff_media_eager (host : Host) (wpgqlNodesGroup : ContentNodeGroup)
    (node : RawRecord) (st : CNState)
    (hpl : wpgqlNodesGroup.plural ≠ "mediaItems") :
    ((createNodeWithSideEffects host wpgqlNodesGroup node st).events.count
          (Event.scanRecord node.id)
        ≠ st.events.count (Event.scanRecord node.id)
      ↔ host.pluginOptions.type.MediaItem.lazyNodes = false)
    ∧ (host.pluginOptions.type.MediaItem.lazyNodes = true →
        (createNodeWithSideEffects host wpgqlNodesGroup node st).referencedMediaItemNodeIds
          = st.referencedMediaItemNodeIds) := by
  constructor
  · cases hl : host.pluginOptions.type.MediaItem.lazyNodes with
    | false =>
      simp only [iff_true]
      unfold createNodeWithSideEffects
      rw [commitStep_count_scanRecord, hookStep_count_scanRecord,
        scanStep_eager host _ _ _ hpl hl, applyUrlToPath_id]
      simp [List.count_append]
    | true =>
      simp only [Bool.true_eq_false, iff_false, ne_eq, not_not]
      unfold createNodeWithSideEffects
      rw [commitStep_count_scanRecord, hookStep_count_scanRecord,
        scanStep_lazy host _ _ _ hl]
  · intro hl
    exact createNodeWithSideEffects_refs_lazy host _ _ _ hl

/-- Witness for the amended C1: on a concrete non-media record with eager media
settings, the scan event is recorded. -/
theorem referenceScan_iff_media_eager_witness :
    (createNodeWithSideEffects hostEagerNoHook postsGroupWithMediaRef recordWithMediaRef
        emptyCNState).events.count (Event.scanRecord "p1")
      ≠ emptyCNState.events.count (Event.scanRecord "p1") :=
  (referenceScan_iff_media_eager hostEagerNoHook postsGroupWithMediaRef recordWithMediaRef
      emptyCNState (by decide)).1.mpr rfl

/-! ## Claim C3 -/

/-- C3: when the embedded-reference scan runs on a non-media record (the
MediaItem setting being eager, per the code's condition) whose stable
serialization yields exactly two distinct foreign id captures of the
`"id":"<id>","sourceUrl"` pattern plus one capture equal to the record's own
id, the ReferencedEntityIdSet afterwards contains exactly the two foreign ids
and not the record's own id. -/
theorem referenceScan_two_foreign_one_self (host : Host)
    (wpgqlNodesGroup : ContentNodeGroup) (node : RawRecord) (st : CNState)
    (f1 f2 : String)
    (hpl : wpgqlNodesGroup.plural ≠ "mediaItems")
    (hlazy : host.pluginOptions.type.MediaItem.lazyNodes = false)
    (hempty : st.referencedMediaItemNodeIds = [])
    (hscan : (execallScan (stringifyNode (applyUrlToPath host node))).Perm
      [f1, node.id, f2])
    (h1 : f1 ≠ node.id) (h2 : f2 ≠ node.id) (h12 : f1 ≠ f2) :
    (createNodeWithSideEffects host wpgqlNodesGroup node
        st).referencedMediaItemNodeIds.toFinset = {f1, f2}
    ∧ node.id ∉ (createNodeWithSideEffects host wpgqlNodesGroup node
        st).referencedMediaItemNodeIds := by
  rw [createNodeWithSideEffects_refs_eager host _ _ _ hpl hlazy, hempty]
  have hmem : ∀ x,
      x ∈ ((execallScan (stringifyNode (applyUrlToPath host node))).filter
          (fun id => id != node.id)).foldl setAdd []
        ↔ (x = f1 ∨ x = f2) := by
    intro x
    rw [mem_foldl_setAdd]
    simp only [List.not_mem_nil, false_or, or_false, List.mem_filter, bne_iff_ne, ne_eq,
      hscan.mem_iff, List.mem_cons, List.mem_singleton]
    constructor
    · rintro ⟨hx | hx | hx, hne⟩
      · exact Or.inl hx
      · exact absurd hx hne
      · exact Or.inr hx
    · rintro (rfl | rfl)
      · exact ⟨Or.inl rfl, h1⟩
      · exact ⟨Or.inr (Or.inr rfl), h2⟩
  constructor
  · ext a
    simp only [List.mem_toFinset, hmem a, Finset.mem_insert, Finset.mem_singleton]
  · intro hmem2
    rcases (hmem node.id).mp hmem2 with hx | hx
    · exact h1 hx.symm
    · exact h2 hx.symm

/-- A record of a non-media type whose serialization yields two foreign media
reference captures (`m1`, `m2`) and one self-reference capture (`p1`). -/
def recordWithThreeRefs : RawRecord :=
  { id := "p1", type := "Post", link := none, path := none
    fields := [("a", "\"id\":\"m1\",\"sourceUrl\""), ("b", "\"id\":\"m2\",\"sourceUrl\""),
               ("c", "\"id\":\"p1\",\"sourceUrl\"")] }

/-- The `posts` group holding `recordWithThreeRefs` alone. -/
def postsGroupWithThreeRefs : ContentNodeGroup :=
  { singular := "post", plural := "posts", allNodesOfContentType := [recordWithThreeRefs] }

/-- Witness for C3 on a concrete record with captures `m1`, `p1` (self), `m2`. -/
theorem referenceScan_two_foreign_one_self_witness :
    (createNodeWithSideEffects hostEagerNoHook postsGroupWithThreeRefs recordWithThreeRefs
        emptyCNState).referencedMediaItemNodeIds.toFinset = {"m1", "m2"}
    ∧ "p1" ∉ (createNodeWithSideEffects hostEagerNoHook postsGroupWithThreeRefs
        recordWithThreeRefs emptyCNState).referencedMediaItemNodeIds :=
  referenceScan_two_foreign_one_self hostEagerNoHook postsGroupWithThreeRefs
    recordWithThreeRefs emptyCNState "m1" "m2" (by decide) rfl rfl (by decide)
    (by decide) (by decide) (by decide)

/-! ## Claim C4 -/

/-- C4: for every record, the committed MaterializedNode carries all of the
record's fields (id, type discriminator, link, opaque fields, plus the derived
path), has `parent = null`, has `internal.type` given by the stable type-name
builder applied to the record's type discriminator, and has
`internal.contentDigest` computed over the record itself (after the in-place
path derivation) rather than over the node wrapper that adds
`parent`/`internal`. -/
theorem committedNode_shape (host : Host) (wpgqlNodesGroup : ContentNodeGroup)
    (node : RawRecord) (st : CNState) :
    ∃ n : MaterializedNode,
      (createNodeWithSideEffects host wpgqlNodesGroup node st).committedNodes
          = st.committedNodes ++ [n]
        ∧ n.id = node.id ∧ n.type = node.type ∧ n.link = node.link
        ∧ n.fields = node.fields ∧ n.path = (applyUrlToPath host node).path
        ∧ n.parent = none
        ∧ n.internal.type = host.buildTypeName node.type
        ∧ n.internal.contentDigest = host.createContentDigest (applyUrlToPath host node) := by
  refine ⟨buildRemoteNode host (applyUrlToPath host node), ?_, ?_, ?_, ?_, ?_, rfl, rfl, ?_, rfl⟩
  · unfold createNodeWithSideEffects
    rw [commitStep_committedNodes, hookStep_committedNodes, scanStep_committedNodes]
  · exact applyUrlToPath_id host node
  · exact applyUrlToPath_type host node
  · exact applyUrlToPath_link host node
  · exact applyUrlToPath_fields host node
  · show host.buildTypeName (applyUrlToPath host node).type = host.buildTypeName node.type
    rw [applyUrlToPath_type]

/-! ## Claim C6 -/

/-- C6: for a record whose type has a `beforeChangeNode` hook resolving to
`additionalNodeIds = ["a","b"]`, both ids are appended to the committed-ids
ledger once in this invocation — whatever the ledger already holds, so
duplicates across records are preserved, never deduplicated — and to the
side-effect counter, and the record's own id is appended to the ledger after
the node commit action, whose event immediately precedes the own-id push at the
end of the unit's trace. -/
theorem hookAdditionalIds_appended (host : Host) (wpgqlNodesGroup : ContentNodeGroup)
    (node : RawRecord) (st : CNState)
    (hookFn : BeforeChangeNodeArgs → Option HookReturn)
    (hcfg : (host.getTypeSettingsByType node.type).bind (fun ts => ts.beforeChangeNode)
      = some hookFn)
    (hres : hookFn
        { actionType := "CREATE_ALL"
          remoteNode := buildRemoteNode host (applyUrlToPath host node)
          type := node.type }
      = some { additionalNodeIds := some ["a", "b"] }) :
    (createNodeWithSideEffects host wpgqlNodesGroup node st).createdNodeIds
        = (st.createdNodeIds ++ ["a", "b"]) ++ [node.id]
      ∧ (createNodeWithSideEffects host wpgqlNodesGroup node st).totalSideEffectNodes
        = st.totalSideEffectNodes ++ ["a", "b"]
      ∧ ∃ pre, (createNodeWithSideEffects host wpgqlNodesGroup node st).events
        = pre ++ [Event.createNode node.id, Event.pushOwnId node.id] := by
  have hadd : hookAdditionalNodeIds host (buildRemoteNode host (applyUrlToPath host node))
      (applyUrlToPath host node).type = some (some ["a", "b"]) := by
    rw [applyUrlToPath_type,
      hookAdditionalNodeIds_of_hook host _ node.type hookFn hcfg, hres]
  rw [createNodeWithSideEffects_eq,
    hookStep_some_ids host _ _ _ _ hadd (by simp)]
  refine ⟨?_, ?_, ?_⟩
  · simp only [commitStep_createdNodeIds, scanStep_createdNodeIds, applyUrlToPath_id]
  · simp only [commitStep_totalSideEffectNodes, scanStep_totalSideEffectNodes]
  · simp only [commitStep_events, buildRemoteNode_id, applyUrlToPath_id]
    exact ⟨_, rfl⟩

/-- A host whose `beforeChangeNode` hook (for every type) reports the
additional node ids `a` and `b`. -/
def hostWithHookAB : Host :=
  { pluginOptions := { type := { MediaItem := { lazyNodes := true } } }
    urlToPath := fun s => s
    createContentDigest := fun _ => "digest"
    buildTypeName := fun t => t
    getTypeSettingsByType := fun _ =>
      some { beforeChangeNode := some fun _ => some { additionalNodeIds := some ["a", "b"] } } }

/-- A ledger state that already holds the ids `a` and `b`. -/
def stWithAB : CNState :=
  { createdNodeIds := ["a", "b"], totalSideEffectNodes := []
    referencedMediaItemNodeIds := [], committedNodes := [], events := [] }

/-- Witness for C6: one invocation of the hook appends `a`, `b` and then the
record's own id even to a ledger that already holds both ids — duplicates are
preserved. -/
theorem hookAdditionalIds_appended_witness :
    (createNodeWithSideEffects hostWithHookAB postsGroupWithMediaRef recordWithMediaRef
        stWithAB).createdNodeIds = (["a", "b"] ++ ["a", "b"]) ++ ["p1"] :=
  (hookAdditionalIds_appended hostWithHookAB postsGroupWithMediaRef recordWithMediaRef
    stWithAB (fun _ => some { additionalNodeIds := some ["a", "b"] }) rfl rfl).1

/-! ## Claim C10 -/

/-- C10: for a record whose type has a `beforeChangeNode` hook that resolves to
`undefined` or to an object without `additionalNodeIds`, the unit does not
fail: nothing extra is appended to the ledger or the side-effect counter, the
node commit action still runs, and exactly the record's own id is appended for
that unit. -/
theorem hookNoAdditionalIds_benign (host : Host) (wpgqlNodesGroup : ContentNodeGroup)
    (node : RawRecord) (st : CNState)
    (hookFn : BeforeChangeNodeArgs → Option HookReturn)
    (hcfg : (host.getTypeSettingsByType node.type).bind (fun ts => ts.beforeChangeNode)
      = some hookFn)
    (hres : hookFn
          { actionType := "CREATE_ALL"
            remoteNode := buildRemoteNode host (applyUrlToPath host node)
            type := node.type }
        = none
      ∨ hookFn
          { actionType := "CREATE_ALL"
            remoteNode := buildRemoteNode host (applyUrlToPath host node)
            type := node.type }
        = some { additionalNodeIds := none }) :
    (createNodeWithSideEffects host wpgqlNodesGroup node st).createdNodeIds
        = st.createdNodeIds ++ [node.id]
      ∧ (createNodeWithSideEffects host wpgqlNodesGroup node st).totalSideEffectNodes
        = st.totalSideEffectNodes
      ∧ (createNodeWithSideEffects host wpgqlNodesGroup node st).committedNodes
        = st.committedNodes ++ [buildRemoteNode host (applyUrlToPath host node)] := by
  have hadd : hookAdditionalNodeIds host (buildRemoteNode host (applyUrlToPath host node))
      (applyUrlToPath host node).type = some none := by
    rw [applyUrlToPath_type,
      hookAdditionalNodeIds_of_hook host _ node.type hookFn hcfg]
    rcases hres with hres | hres <;> rw [hres]
  rw [createNodeWithSideEffects_eq, hookStep_none_ids host _ _ _ hadd]
  refine ⟨?_, ?_, ?_⟩
  · simp only [commitStep_createdNodeIds, scanStep_createdNodeIds, applyUrlToPath_id]
  · simp only [commitStep_totalSideEffectNodes, scanStep_totalSideEffectNodes]
  · simp only [commitStep_committedNodes, scanStep_committedNodes]

/-- A host whose `beforeChangeNode` hook resolves to `undefined`. -/
def hostWithHookNone : Host :=
  { pluginOptions := { type := { MediaItem := { lazyNodes := true } } }
    urlToPath := fun s => s
    createContentDigest := fun _ => "digest"
    buildTypeName := fun t => t
    getTypeSettingsByType := fun _ => some { beforeChangeNode := some fun _ => none } }

/-- Witness for C10: a concrete hook resolving to `undefined` still lets the
unit commit the node and append exactly the record's own id. -/
theorem hookNoAdditionalIds_benign_witness :
    (createNodeWithSideEffects hostWithHookNone postsGroupWithMediaRef recordWithMediaRef
        emptyCNState).createdNodeIds = [] ++ ["p1"] :=
  (hookNoAdditionalIds_benign hostWithHookNone postsGroupWithMediaRef recordWithMediaRef
    emptyCNState (fun _ => none) rfl (Or.inl rfl)).1

/-! ## Lemmas about lodash `chunk` -/

theorem chunkListAux_nil {α : Type} (fuel size : Nat) :
    chunkListAux fuel size ([] : List α) = [] := by
  cases fuel <;> rfl

theorem chunkListAux_flatten {α : Type} :
    ∀ (fuel size : Nat) (l : List α), l.length ≤ fuel → 0 < size →
      (chunkListAux fuel size l).flatten = l := by
  intro fuel
  induction fuel with
  | zero =>
    intro size l hl _
    rw [List.eq_nil_of_length_eq_zero (Nat.le_zero.mp hl)]
    rfl
  | succ fuel ih =>
    intro size l hl hs
    cases l with
    | nil => rfl
    | cons x xs =>
      have hs0 : size ≠ 0 := Nat.pos_iff_ne_zero.mp hs
      show (chunkListAux (fuel + 1) size (x :: xs)).flatten = x :: xs
      unfold chunkListAux
      rw [if_neg hs0]
      rw [List.flatten_cons, ih size ((x :: xs).drop size) ?_ hs,
        List.take_append_drop]
      rw [List.length_drop]
      omega

theorem chunkList_flatten {α : Type} (size : Nat) (l : List α) (h : 0 < size) :
    (chunkList size l).flatten = l :=
  chunkListAux_flatten l.length size l le_rfl h

theorem chunkListAux_subset {α : Type} :
    ∀ (fuel size : Nat) (l b : List α), b ∈ chunkListAux fuel size l →
      ∀ x ∈ b, x ∈ l := by
  intro fuel
  induction fuel with
  | zero => intro size l b hb; simp [chunkListAux] at hb
  | succ fuel ih =>
    intro size l b hb x hx
    cases l with
    | nil => rw [chunkListAux_nil] at hb; simp at hb
    | cons y ys =>
      unfold chunkListAux at hb
      by_cases hs : size = 0
      · rw [if_pos hs] at hb; simp at hb
      · rw [if_neg hs] at hb
        rcases List.mem_cons.mp hb with rfl | hb
        · exact List.take_subset _ _ hx
        · exact List.drop_subset _ _ (ih size _ b hb x hx)

theorem chunkListAux_sizes {α : Type} :
    ∀ (fuel size : Nat) (l b : List α), 0 < size → b ∈ chunkListAux fuel size l →
      b.length ≤ size ∧ b ≠ [] := by
  intro fuel
  induction fuel with
  | zero => intro size l b _ hb; simp [chunkListAux] at hb
  | succ fuel ih =>
    intro size l b hs hb
    cases l with
    | nil => rw [chunkListAux_nil] at hb; simp at hb
    | cons y ys =>
      unfold chunkListAux at hb
      rw [if_neg (Nat.pos_iff_ne_zero.mp hs)] at hb
      rcases List.mem_cons.mp hb with rfl | hb
      · constructor
        · rw [List.length_take]; exact Nat.min_le_left _ _
        · have : 0 < ((y :: ys).take size).length := by
            rw [List.length_take]
            simp [Nat.lt_min, hs]
          intro hnil
          rw [hnil] at this
          simp at this
      · exact ih size _ b hs hb

theorem chunkListAux_ne_nil_of_arg {α : Type} (fuel size : Nat) (l : List α)
    (h : chunkListAux fuel size l ≠ []) : l ≠ [] := by
  intro hl
  rw [hl, chunkListAux_nil] at h
  exact h rfl

theorem chunkListAux_dropLast_sizes {α : Type} :
    ∀ (fuel size : Nat) (l : List α), l.length ≤ fuel → 0 < size →
      ∀ b ∈ (chunkListAux fuel size l).dropLast, b.length = size := by
  intro fuel
  induction fuel with
  | zero => intro size l _ _ b hb; simp [chunkListAux] at hb
  | succ fuel ih =>
    intro size l hl hs b hb
    cases l with
    | nil => rw [chunkListAux_nil] at hb; simp at hb
    | cons y ys =>
      unfold chunkListAux at hb
      rw [if_neg (Nat.pos_iff_ne_zero.mp hs)] at hb
      rcases hrest : chunkListAux fuel size ((y :: ys).drop size) with _ | ⟨r, rs⟩
      · rw [hrest] at hb
        simp at hb
      · rw [hrest] at hb
        rw [List.dropLast_cons₂] at hb
        rcases List.mem_cons.mp hb with rfl | hb
        · have hdrop : (y :: ys).drop size ≠ [] := by
            apply chunkListAux_ne_nil_of_arg fuel size
            rw [hrest]
            simp
          have hlen : size < (y :: ys).length := by
            by_contra hcon
            push_neg at hcon
            exact hdrop (List.drop_eq_nil_of_le hcon)
          rw [List.length_take]
          omega
        · refine ih size ((y :: ys).drop size) ?_ hs b ?_
          · rw [List.length_drop]; omega
          · rw [hrest]; exact hb

theorem chunkList_dropLast_sizes {α : Type} (size : Nat) (l : List α) (h : 0 < size) :
    ∀ b ∈ (chunkList size l).dropLast, b.length = size :=
  chunkListAux_dropLast_sizes l.length size l le_rfl h

/-! ## Membership in the orchestrator's output -/

theorem mem_fetchTypeResult_snd (env : Env) (q : QueryInfo) (e : Event) :
    e ∈ (fetchTypeResult env q).snd
      ↔ shouldSkipUpfrontFetch q = false ∧ e = Event.fetchType q := by
  unfold fetchTypeResult
  split
  · rename_i h
    simp [h]
  · rename_i h
    rw [Bool.not_eq_true] at h
    split <;> simp [h]

theorem mem_fetchTypeResult_fst (env : Env) (q : QueryInfo) (g : ContentNodeGroup) :
    g ∈ (fetchTypeResult env q).fst
      ↔ shouldSkipUpfrontFetch q = false ∧ fetchWPGQLContentNodes env q = some g := by
  unfold fetchTypeResult
  split
  · rename_i h
    simp [h]
  · rename_i h
    rw [Bool.not_eq_true] at h
    split
    · rename_i g' hg'
      simp [h, hg', eq_comm]
    · rename_i hg'
      simp [h, hg']

theorem mem_batchResult_snd (env : Env) (batch : List QueryInfo) (e : Event) :
    e ∈ (batchResult env batch).snd ↔ ∃ q ∈ batch, e ∈ (fetchTypeResult env q).snd := by
  unfold batchResult
  simp only [List.mem_flatten, List.mem_map]
  constructor
  · rintro ⟨l, ⟨p, ⟨q, hq, rfl⟩, rfl⟩, he⟩
    exact ⟨q, hq, he⟩
  · rintro ⟨q, hq, he⟩
    exact ⟨(fetchTypeResult env q).snd, ⟨fetchTypeResult env q, ⟨q, hq, rfl⟩, rfl⟩, he⟩

theorem mem_batchResult_fst (env : Env) (batch : List QueryInfo) (g : ContentNodeGroup) :
    g ∈ (batchResult env batch).fst ↔ ∃ q ∈ batch, g ∈ (fetchTypeResult env q).fst := by
  unfold batchResult
  simp only [List.mem_flatten, List.mem_map]
  constructor
  · rintro ⟨l, ⟨p, ⟨q, hq, rfl⟩, rfl⟩, he⟩
    exact ⟨q, hq, he⟩
  · rintro ⟨q, hq, he⟩
    exact ⟨(fetchTypeResult env q).fst, ⟨fetchTypeResult env q, ⟨q, hq, rfl⟩, rfl⟩, he⟩

theorem mem_orch_snd (env : Env) (e : Event) :
    e ∈ (fetchWPGQLContentNodesByContentType env).snd
      ↔ ∃ batch ∈ chunkList (resolveChunkSize env.GATSBY_CONCURRENT_DOWNLOAD)
          (getContentTypeQueryInfos env.nodeQueries),
          e ∈ (batchResult env batch).snd := by
  unfold fetchWPGQLContentNodesByContentType
  simp only [List.mem_flatten, List.mem_map]
  constructor
  · rintro ⟨l, ⟨p, ⟨b, hb, rfl⟩, rfl⟩, he⟩
    exact ⟨b, hb, he⟩
  · rintro ⟨b, hb, he⟩
    exact ⟨(batchResult env b).snd, ⟨batchResult env b, ⟨b, hb, rfl⟩, rfl⟩, he⟩

theorem mem_orch_fst (env : Env) (g : ContentNodeGroup) :
    g ∈ (fetchWPGQLContentNodesByContentType env).fst
      ↔ ∃ batch ∈ chunkList (resolveChunkSize env.GATSBY_CONCURRENT_DOWNLOAD)
          (getContentTypeQueryInfos env.nodeQueries),
          g ∈ (batchResult env batch).fst := by
  unfold fetchWPGQLContentNodesByContentType
  simp only [List.mem_flatten, List.mem_map]
  constructor
  · rintro ⟨l, ⟨p, ⟨b, hb, rfl⟩, rfl⟩, he⟩
    exact ⟨b, hb, he⟩
  · rintro ⟨b, hb, he⟩
    exact ⟨(batchResult env b).fst, ⟨batchResult env b, ⟨b, hb, rfl⟩, rfl⟩, he⟩

theorem orch_events_fetchStage (env : Env) :
    ∀ e ∈ (fetchWPGQLContentNodesByContentType env).snd, e.inUpfrontFetchStage = true := by
  intro e he
  obtain ⟨b, _, hb⟩ := (mem_orch_snd env e).mp he
  obtain ⟨q, _, hq⟩ := (mem_batchResult_snd env b e).mp hb
  obtain ⟨_, rfl⟩ := (mem_fetchTypeResult_snd env q e).mp hq
  rfl

theorem chunkList_subset {α : Type} (size : Nat) (l b : List α)
    (hb : b ∈ chunkList size l) : ∀ x ∈ b, x ∈ l :=
  chunkListAux_subset l.length size l b hb

theorem chunkList_sizes {α : Type} (size : Nat) (l b : List α) (hs : 0 < size)
    (hb : b ∈ chunkList size l) : b.length ≤ size ∧ b ≠ [] :=
  chunkListAux_sizes l.length size l b hs hb

/-! ## Equations for the create stage and the driver -/

theorem createGatsbyNodesFromWPGQLContentNodes_eq (host : Host)
    (wpgqlNodesByContentType : List ContentNodeGroup) :
    createGatsbyNodesFromWPGQLContentNodes host wpgqlNodesByContentType
      = (if !host.pluginOptions.type.MediaItem.lazyNodes
            && !(materializeAll host wpgqlNodesByContentType
                  initialCreateState).referencedMediaItemNodeIds.isEmpty
         then
           ((materializeAll host wpgqlNodesByContentType initialCreateState).createdNodeIds
              ++ (materializeAll host wpgqlNodesByContentType
                    initialCreateState).referencedMediaItemNodeIds,
            { materializeAll host wpgqlNodesByContentType initialCreateState with
              events := (materializeAll host wpgqlNodesByContentType
                  initialCreateState).events
                ++ [Event.expansionFetch
                     (materializeAll host wpgqlNodesByContentType
                       initialCreateState).referencedMediaItemNodeIds] })
         else
           ((materializeAll host wpgqlNodesByContentType initialCreateState).createdNodeIds,
            materializeAll host wpgqlNodesByContentType initialCreateState)) := rfl

theorem createGatsby_eager_nonempty (host : Host) (groups : List ContentNodeGroup)
    (h1 : host.pluginOptions.type.MediaItem.lazyNodes = false)
    (h2 : (materializeAll host groups initialCreateState).referencedMediaItemNodeIds ≠ []) :
    createGatsbyNodesFromWPGQLContentNodes host groups
      = ((materializeAll host groups initialCreateState).createdNodeIds
           ++ (materializeAll host groups initialCreateState).referencedMediaItemNodeIds,
         { materializeAll host groups initialCreateState with
           events := (materializeAll host groups initialCreateState).events
             ++ [Event.expansionFetch
                  (materializeAll host groups
                    initialCreateState).referencedMediaItemNodeIds] }) := by
  have hie : (materializeAll host groups
      initialCreateState).referencedMediaItemNodeIds.isEmpty = false := by
    rcases hl : (materializeAll host groups initialCreateState).referencedMediaItemNodeIds
      with _ | ⟨a, l⟩
    · exact absurd hl h2
    · rfl
  have hcond : (!host.pluginOptions.type.MediaItem.lazyNodes
      && !(materializeAll host groups
            initialCreateState).referencedMediaItemNodeIds.isEmpty) = true := by
    rw [h1, hie]; rfl
  rw [createGatsbyNodesFromWPGQLContentNodes_eq, if_pos hcond]

theorem createGatsby_otherwise (host : Host) (groups : List ContentNodeGroup)
    (h : host.pluginOptions.type.MediaItem.lazyNodes = true
      ∨ (materializeAll host groups initialCreateState).referencedMediaItemNodeIds = []) :
    createGatsbyNodesFromWPGQLContentNodes host groups
      = ((materializeAll host groups initialCreateState).createdNodeIds,
         materializeAll host groups initialCreateState) := by
  have hcond : (!host.pluginOptions.type.MediaItem.lazyNodes
      && !(materializeAll host groups
            initialCreateState).referencedMediaItemNodeIds.isEmpty) = false := by
    rcases h with h | h
    · rw [h]; rfl
    · rw [h]; simp
  rw [createGatsbyNodesFromWPGQLContentNodes_eq, if_neg]
  rw [hcond]
  simp

theorem materializeAll_events_createStage (host : Host)
    (wpgqlNodesByContentType : List ContentNodeGroup) :
    ∀ e ∈ (materializeAll host wpgqlNodesByContentType initialCreateState).events,
      e.inCreateStage = true := by
  obtain ⟨seg, hseg, hm⟩ :=
    materializeAll_events_seg host wpgqlNodesByContentType initialCreateState
  intro e he
  rw [hseg] at he
  rcases List.mem_append.mp he with he | he
  · simp only [initialCreateState, List.mem_singleton] at he
    subst he
    rfl
  · exact hm e he

theorem fetchAndCreateAllNodes_eq (env : Env) (host : Host) :
    fetchAndCreateAllNodes env host
      = { createdNodeIds := (createGatsbyNodesFromWPGQLContentNodes host
            (fetchWPGQLContentNodesByContentType env).fst).fst
          events := (fetchWPGQLContentNodesByContentType env).snd
            ++ (createGatsbyNodesFromWPGQLContentNodes host
                  (fetchWPGQLContentNodesByContentType env).fst).snd.events
            ++ [Event.cacheSet CREATED_NODE_IDS
                 (createGatsbyNodesFromWPGQLContentNodes host
                   (fetchWPGQLContentNodesByContentType env).fst).fst] } := rfl

/-! ## Claim C5 -/

/-- C5: `createGatsbyNodesFromWPGQLContentNodes` invokes the reference-expansion
fetch and returns the ledger followed by the deduplicated referenced-media ids
exactly when the MediaItem setting is eager (non-lazy) and the reference set is
non-empty; in every other case (eager with an empty set, or lazy regardless of
the set) it performs no expansion fetch and returns the ledger with no
additional ids. -/
theorem createGatsby_expansion_policy (host : Host)
    (wpgqlNodesByContentType : List ContentNodeGroup) :
    (host.pluginOptions.type.MediaItem.lazyNodes = false →
      (materializeAll host wpgqlNodesByContentType
          initialCreateState).referencedMediaItemNodeIds ≠ [] →
      (createGatsbyNodesFromWPGQLContentNodes host wpgqlNodesByContentType).fst
          = (materializeAll host wpgqlNodesByContentType initialCreateState).createdNodeIds
            ++ (materializeAll host wpgqlNodesByContentType
                  initialCreateState).referencedMediaItemNodeIds
        ∧ Event.expansionFetch
            (materializeAll host wpgqlNodesByContentType
              initialCreateState).referencedMediaItemNodeIds
          ∈ (createGatsbyNodesFromWPGQLContentNodes host wpgqlNodesByContentType).snd.events
        ∧ (materializeAll host wpgqlNodesByContentType
            initialCreateState).referencedMediaItemNodeIds.Nodup)
    ∧ ((host.pluginOptions.type.MediaItem.lazyNodes = true
        ∨ (materializeAll host wpgqlNodesByContentType
            initialCreateState).referencedMediaItemNodeIds = []) →
      (createGatsbyNodesFromWPGQLContentNodes host wpgqlNodesByContentType).fst
          = (materializeAll host wpgqlNodesByContentType initialCreateState).createdNodeIds
        ∧ ∀ ids, Event.expansionFetch ids
          ∉ (createGatsbyNodesFromWPGQLContentNodes host
              wpgqlNodesByContentType).snd.events) := by
  constructor
  · intro h1 h2
    rw [createGatsby_eager_nonempty host _ h1 h2]
    refine ⟨rfl, ?_, materializeAll_refs_nodup host _ initialCreateState (by simp [initialCreateState])⟩
    simp
  · intro h
    rw [createGatsby_otherwise host _ h]
    refine ⟨rfl, ?_⟩
    intro ids hmem
    have := materializeAll_events_createStage host wpgqlNodesByContentType
      (Event.expansionFetch ids) hmem
    simp [Event.inCreateStage] at this

/-- Witness for C5: on a concrete run the eager host with one discovered
reference returns the ledger extended by the referenced ids, and the lazy host
returns the ledger alone. -/
theorem createGatsby_expansion_policy_witness :
    (createGatsbyNodesFromWPGQLContentNodes hostEagerNoHook [postsGroupWithMediaRef]).fst
      = (materializeAll hostEagerNoHook [postsGroupWithMediaRef]
          initialCreateState).createdNodeIds
        ++ (materializeAll hostEagerNoHook [postsGroupWithMediaRef]
            initialCreateState).referencedMediaItemNodeIds
    ∧ (createGatsbyNodesFromWPGQLContentNodes hostLazyNoHook [postsGroupWithMediaRef]).fst
      = (materializeAll hostLazyNoHook [postsGroupWithMediaRef]
          initialCreateState).createdNodeIds :=
  ⟨((createGatsby_expansion_policy hostEagerNoHook [postsGroupWithMediaRef]).1
      rfl (by decide)).1,
   ((createGatsby_expansion_policy hostLazyNoHook [postsGroupWithMediaRef]).2
      (Or.inl rfl)).1⟩

/-! ## Claim C8 -/

/-- C8: `fetchAndCreateAllNodes` runs its stages in strict order: its whole
event trace decomposes into the orchestrator's upfront type fetches, then the
create-stage events (the settings query and the drained materialization queue),
then an optional single reference-expansion fetch, and finally — after all
stages completed — the single cache write persisting the returned ledger under
the key `CREATED_NODE_IDS`. -/
theorem run_stage_ordering (env : Env) (host : Host) :
    ∃ F M X,
      (fetchAndCreateAllNodes env host).events
        = F ++ M ++ X ++ [Event.cacheSet CREATED_NODE_IDS
            (fetchAndCreateAllNodes env host).createdNodeIds]
      ∧ (∀ e ∈ F, e.inUpfrontFetchStage = true)
      ∧ (∀ e ∈ M, e.inCreateStage = true)
      ∧ (X = [] ∨ ∃ ids, X = [Event.expansionFetch ids]) := by
  by_cases h : host.pluginOptions.type.MediaItem.lazyNodes = true
    ∨ (materializeAll host (fetchWPGQLContentNodesByContentType env).fst
        initialCreateState).referencedMediaItemNodeIds = []
  · refine ⟨(fetchWPGQLContentNodesByContentType env).snd,
      (materializeAll host (fetchWPGQLContentNodesByContentType env).fst
        initialCreateState).events,
      [], ?_, orch_events_fetchStage env,
      materializeAll_events_createStage host _, Or.inl rfl⟩
    rw [fetchAndCreateAllNodes_eq, createGatsby_otherwise host _ h]
    simp
  · push_neg at h
    obtain ⟨h1, h2⟩ := h
    have h1' : host.pluginOptions.type.MediaItem.lazyNodes = false :=
      Bool.eq_false_iff.mpr h1
    refine ⟨(fetchWPGQLContentNodesByContentType env).snd,
      (materializeAll host (fetchWPGQLContentNodesByContentType env).fst
        initialCreateState).events,
      [Event.expansionFetch
        (materializeAll host (fetchWPGQLContentNodesByContentType env).fst
          initialCreateState).referencedMediaItemNodeIds],
      ?_, orch_events_fetchStage env,
      materializeAll_events_createStage host _,
      Or.inr ⟨_, rfl⟩⟩
    rw [fetchAndCreateAllNodes_eq, createGatsby_eager_nonempty host _ h1' h2]
    simp

/-! ## Claim C2 -/

/-- C2 (amended): provided the orchestrator's batch size resolves to a positive
number (the environment override unset, or set to a positive integer),
`fetchWPGQLContentNodesByContentType` issues an upfront fetch for a catalog
entry if and only if the entry has `settings.exclude` false,
`settings.lazyNodes` false, and `typeInfo.nodesTypeName` different from
`MediaItem`; every excluded, lazy, or media-item entry receives zero upfront
fetches.  (When the override is set to zero, lodash `chunk` produces no batches
and nothing at all is fetched.) -/
theorem upfront_fetch_iff (env : Env) (q : QueryInfo)
    (hq : q ∈ env.nodeQueries)
    (hk : 0 < resolveChunkSize env.GATSBY_CONCURRENT_DOWNLOAD) :
    Event.fetchType q ∈ (fetchWPGQLContentNodesByContentType env).snd
      ↔ q.settings.exclude = false ∧ q.settings.lazyNodes = false
        ∧ q.typeInfo.nodesTypeName ≠ "MediaItem" := by
  have hchain : Event.fetchType q ∈ (fetchWPGQLContentNodesByContentType env).snd
      ↔ q ∈ getContentTypeQueryInfos env.nodeQueries
        ∧ shouldSkipUpfrontFetch q = false := by
    rw [mem_orch_snd]
    constructor
    · rintro ⟨b, hb, hmem⟩
      obtain ⟨q', hq', hmem'⟩ := (mem_batchResult_snd env b _).mp hmem
      obtain ⟨hskip, heq⟩ := (mem_fetchTypeResult_snd env q' _).mp hmem'
      injection heq with heq'
      subst heq'
      exact ⟨chunkList_subset _ _ b hb q hq', hskip⟩
    · rintro ⟨helig, hskip⟩
      have hfl : q ∈ (chunkList (resolveChunkSize env.GATSBY_CONCURRENT_DOWNLOAD)
          (getContentTypeQueryInfos env.nodeQueries)).flatten := by
        rw [chunkList_flatten _ _ hk]
        exact helig
      obtain ⟨b, hb, hqb⟩ := List.mem_flatten.mp hfl
      exact ⟨b, hb, (mem_batchResult_snd env b _).mpr
        ⟨q, hqb, (mem_fetchTypeResult_snd env q _).mpr ⟨hskip, rfl⟩⟩⟩
  rw [hchain, getContentTypeQueryInfos, List.mem_filter]
  simp only [hq, true_and, Bool.not_eq_true']
  unfold shouldSkipUpfrontFetch
  cases hz : q.settings.lazyNodes <;>
    simp [hz, beq_eq_false_iff_ne]

/-- One non-excluded, non-lazy, non-media catalog entry named after its type. -/
def queryInfoNamed (n : String) : QueryInfo :=
  { typeInfo := { singularName := n, pluralName := String.append n "s", nodesTypeName := n }
    nodeListQueries := ["query"]
    settings := { exclude := false, lazyNodes := false } }

/-- An environment with three eligible catalog entries and the concurrency
override set to 2. -/
def envThreeTypes : Env :=
  { nodeQueries := [queryInfoNamed "Post", queryInfoNamed "Page", queryInfoNamed "User"]
    GATSBY_CONCURRENT_DOWNLOAD := some 2
    paginatedWpNodeFetch := fun _ _ => [] }

/-- Witness for the amended C2: with a positive override, an eligible entry
does receive its upfront fetch. -/
theorem upfront_fetch_iff_witness :
    Event.fetchType (queryInfoNamed "Post")
      ∈ (fetchWPGQLContentNodesByContentType envThreeTypes).snd :=
  (upfront_fetch_iff envThreeTypes (queryInfoNamed "Post") (by decide) (by decide)).mpr
    ⟨rfl, rfl, by decide⟩

/-- An environment whose concurrency override is set to the (truthy) string
`"0"`, with one eligible non-media entry in the catalog. -/
def envZeroOverrideB : Env :=
  { nodeQueries := [queryInfoNamed "Page"]
    GATSBY_CONCURRENT_DOWNLOAD := some 0
    paginatedWpNodeFetch := fun _ _ => [recordWithMediaRef] }

/-- C2 (counterexample): with `GATSBY_CONCURRENT_DOWNLOAD` set to `"0"` —
a truthy string, so `|| 50` does not replace it and lodash `chunk` with size 0
yields no batches — an entry with `exclude = false`, `lazyNodes = false` and a
non-media type name receives no upfront fetch, refuting the claimed
"if and only if". -/
theorem upfront_fetch_iff_counterexample :
    (queryInfoNamed "Page").settings.exclude = false
    ∧ (queryInfoNamed "Page").settings.lazyNodes = false
    ∧ (queryInfoNamed "Page").typeInfo.nodesTypeName ≠ "MediaItem"
    ∧ (queryInfoNamed "Page") ∈ envZeroOverrideB.nodeQueries
    ∧ Event.fetchType (queryInfoNamed "Page")
      ∉ (fetchWPGQLContentNodesByContentType envZeroOverrideB).snd :=
  ⟨rfl, rfl, by decide, by decide, by decide⟩

/-! ## Claim C7 -/

theorem fetchWPGQLContentNodes_some (env : Env) (q : QueryInfo) (g : ContentNodeGroup)
    (h : fetchWPGQLContentNodes env q = some g) :
    g.allNodesOfContentType ≠ [] := by
  simp only [fetchWPGQLContentNodes] at h
  split at h
  · rename_i hne
    obtain rfl := Option.some_inj.mp h
    rw [Bool.not_eq_true'] at hne
    intro hnil
    simp only at hnil
    rw [hnil] at hne
    simp at hne
  · exact absurd h (by simp)

/-- C7: for a content type whose list queries yield zero records in total,
`fetchWPGQLContentNodes` returns `false` (here `none`) instead of a
ContentNodeGroup; every group in the orchestrator's output stems from an
eligible entry whose fetch returned a non-empty group (so no group for the
empty type can appear); and the run still completes, ending with the cache
write of the ledger. -/
theorem emptyType_no_group (env : Env) (q : QueryInfo)
    (hq : fetchNodeLists env q = []) :
    fetchWPGQLContentNodes env q = none
    ∧ (∀ g ∈ (fetchWPGQLContentNodesByContentType env).fst,
        ∃ q', q' ∈ getContentTypeQueryInfos env.nodeQueries
          ∧ fetchWPGQLContentNodes env q' = some g
          ∧ g.allNodesOfContentType ≠ [])
    ∧ (∀ host : Host, ∃ ids,
        (fetchAndCreateAllNodes env host).events.getLast?
          = some (Event.cacheSet CREATED_NODE_IDS ids)) := by
  refine ⟨?_, ?_, ?_⟩
  · unfold fetchWPGQLContentNodes
    rw [hq]
    rfl
  · intro g hg
    obtain ⟨b, hb, hg⟩ := (mem_orch_fst env g).mp hg
    obtain ⟨q', hq', hg'⟩ := (mem_batchResult_fst env b g).mp hg
    obtain ⟨_, hfetch⟩ := (mem_fetchTypeResult_fst env q' g).mp hg'
    exact ⟨q', chunkList_subset _ _ b hb q' hq', hfetch,
      fetchWPGQLContentNodes_some env q' g hfetch⟩
  · intro host
    refine ⟨(createGatsbyNodesFromWPGQLContentNodes host
      (fetchWPGQLContentNodesByContentType env).fst).fst, ?_⟩
    rw [fetchAndCreateAllNodes_eq]
    show ((fetchWPGQLContentNodesByContentType env).snd
      ++ (createGatsbyNodesFromWPGQLContentNodes host
            (fetchWPGQLContentNodesByContentType env).fst).snd.events
      ++ [Event.cacheSet CREATED_NODE_IDS
           (createGatsbyNodesFromWPGQLContentNodes host
             (fetchWPGQLContentNodesByContentType env).fst).fst]).getLast? = _
    exact List.getLast?_concat _

/-- An environment whose only catalog entry yields zero records. -/
def envEmptyType : Env :=
  { nodeQueries := [queryInfoNamed "Empty"]
    GATSBY_CONCURRENT_DOWNLOAD := none
    paginatedWpNodeFetch := fun _ _ => [] }

/-- Witness for C7: the entry yielding zero records produces `none`. -/
theorem emptyType_no_group_witness :
    fetchWPGQLContentNodes envEmptyType (queryInfoNamed "Empty") = none :=
  (emptyType_no_group envEmptyType (queryInfoNamed "Empty") (by decide)).1

/-! ## Claim C9 -/

/-- C9 (amended): provided the batch size resolves to a positive number (the
environment override unset, defaulting to 50, or set to a positive integer),
the orchestrator splits the eligible catalog entries into consecutive batches
of exactly that size (the last batch possibly smaller), preserving catalog
order — their concatenation is the eligible list — and its trace is the
in-order concatenation of the per-batch traces, so no fetch of batch B+1
precedes one of batch B.  (With the override set to zero, lodash `chunk`
produces no batches at all and no entry is ever fetched.) -/
theorem orchestrator_batching (env : Env)
    (hk : 0 < resolveChunkSize env.GATSBY_CONCURRENT_DOWNLOAD) :
    (chunkList (resolveChunkSize env.GATSBY_CONCURRENT_DOWNLOAD)
        (getContentTypeQueryInfos env.nodeQueries)).flatten
      = getContentTypeQueryInfos env.nodeQueries
    ∧ (∀ b ∈ chunkList (resolveChunkSize env.GATSBY_CONCURRENT_DOWNLOAD)
        (getContentTypeQueryInfos env.nodeQueries),
        b.length ≤ resolveChunkSize env.GATSBY_CONCURRENT_DOWNLOAD ∧ b ≠ [])
    ∧ (∀ b ∈ (chunkList (resolveChunkSize env.GATSBY_CONCURRENT_DOWNLOAD)
        (getContentTypeQueryInfos env.nodeQueries)).dropLast,
        b.length = resolveChunkSize env.GATSBY_CONCURRENT_DOWNLOAD)
    ∧ (fetchWPGQLContentNodesByContentType env).snd
      = ((chunkList (resolveChunkSize env.GATSBY_CONCURRENT_DOWNLOAD)
          (getContentTypeQueryInfos env.nodeQueries)).map
          (fun batch => (batchResult env batch).snd)).flatten := by
  refine ⟨chunkList_flatten _ _ hk,
    fun b hb => chunkList_sizes _ _ b hk hb,
    chunkList_dropLast_sizes _ _ hk, ?_⟩
  simp only [fetchWPGQLContentNodesByContentType]
  rw [List.map_map]
  rfl

/-- Witness for the amended C9: with override 2 and three eligible entries the
batches cover the catalog in order. -/
theorem orchestrator_batching_witness :
    (chunkList (resolveChunkSize envThreeTypes.GATSBY_CONCURRENT_DOWNLOAD)
        (getContentTypeQueryInfos envThreeTypes.nodeQueries)).flatten
      = getContentTypeQueryInfos envThreeTypes.nodeQueries :=
  (orchestrator_batching envThreeTypes (by decide)).1

/-- An environment whose concurrency override is set to the (truthy) string
`"0"`, with one eligible entry and a fetcher that would yield one record. -/
def envZeroOverride : Env :=
  { nodeQueries := [queryInfoNamed "Post"]
    GATSBY_CONCURRENT_DOWNLOAD := some 0
    paginatedWpNodeFetch := fun _ _ => [recordWithMediaRef] }

/-- C9 (counterexample): with `GATSBY_CONCURRENT_DOWNLOAD` set to `"0"` the
eligible catalog is non-empty but lodash `chunk` returns no batches, the
joined batches differ from the eligible list (the split does not preserve the
catalog), and the orchestrator issues no fetch at all. -/
theorem orchestrator_batching_counterexample :
    getContentTypeQueryInfos envZeroOverride.nodeQueries ≠ []
    ∧ chunkList (resolveChunkSize envZeroOverride.GATSBY_CONCURRENT_DOWNLOAD)
        (getContentTypeQueryInfos envZeroOverride.nodeQueries) = []
    ∧ (chunkList (resolveChunkSize envZeroOverride.GATSBY_CONCURRENT_DOWNLOAD)
        (getContentTypeQueryInfos envZeroOverride.nodeQueries)).flatten
      ≠ getContentTypeQueryInfos envZeroOverride.nodeQueries
    ∧ (fetchWPGQLContentNodesByContentType envZeroOverride).snd = [] :=
  ⟨by decide, by decide, by decide, by decide⟩

end WpSource
